import Mathlib

/-!
Verification model of `tools/check_pnpm_audit_exceptions.py`.

The script reconciles a pnpm audit report against an accepted-risk exception
list.  Every function below is a direct translation of the correspondingly
named Python function; `main`'s body is split into its two loop bodies
(`buildStep` for the exception-index loop, `evalStep` for the findings loop),
the report-assembly code (`missingBlock`, `expiredBlock`) and the exit logic
(`runMain`).  JSON values are modelled by `JValue` (numbers restricted to
integers, which is all the reachable numeric behaviour the claims touch);
Python `str`/`None` values are embedded via `JValue.str`/`JValue.null`.
Fallible operations (attribute errors on non-dicts, `str.join` on non-string
elements, unpacking a split that produced no pair) are modelled with
`Except String`, matching the places where the Python code can raise.

Modelling notes on string primitives: Python's `str.strip`, `str.lower`,
`str.upper` are modelled on the ASCII range (`pyStrip`, `pyLower`, `pyUpper`);
`repr` of containers (`pyRepr`) reproduces Python's container formatting but
does not model escape sequences inside quoted strings, a corner only reachable
when a list or dict is itself used as a package or advisory value.
`date.fromisoformat` is modelled on the canonical `YYYY-MM-DD` dialect.
Python's set-iteration order for `REQUIRED_FIELDS` is unspecified; the model
fixes the declaration order.
-/

/-! ### Python string primitives -/

def pyIsSpace (c : Char) : Bool :=
  c == ' ' || c == '\t' || c == '\n' || c == '\r'

def pyLowerChar (c : Char) : Char :=
  match c with
  | 'A' => 'a' | 'B' => 'b' | 'C' => 'c' | 'D' => 'd' | 'E' => 'e' | 'F' => 'f'
  | 'G' => 'g' | 'H' => 'h' | 'I' => 'i' | 'J' => 'j' | 'K' => 'k' | 'L' => 'l'
  | 'M' => 'm' | 'N' => 'n' | 'O' => 'o' | 'P' => 'p' | 'Q' => 'q' | 'R' => 'r'
  | 'S' => 's' | 'T' => 't' | 'U' => 'u' | 'V' => 'v' | 'W' => 'w' | 'X' => 'x'
  | 'Y' => 'y' | 'Z' => 'z'
  | other => other

def pyUpperChar (c : Char) : Char :=
  match c with
  | 'a' => 'A' | 'b' => 'B' | 'c' => 'C' | 'd' => 'D' | 'e' => 'E' | 'f' => 'F'
  | 'g' => 'G' | 'h' => 'H' | 'i' => 'I' | 'j' => 'J' | 'k' => 'K' | 'l' => 'L'
  | 'm' => 'M' | 'n' => 'N' | 'o' => 'O' | 'p' => 'P' | 'q' => 'Q' | 'r' => 'R'
  | 's' => 'S' | 't' => 'T' | 'u' => 'U' | 'v' => 'V' | 'w' => 'W' | 'x' => 'X'
  | 'y' => 'Y' | 'z' => 'Z'
  | other => other

def stripL (l : List Char) : List Char :=
  ((l.dropWhile pyIsSpace).reverse.dropWhile pyIsSpace).reverse

def pyStrip (s : String) : String := String.mk (stripL s.data)

def pyLower (s : String) : String := String.mk (s.data.map pyLowerChar)

def pyUpper (s : String) : String := String.mk (s.data.map pyUpperChar)

def listIsPfx : List Char → List Char → Bool
  | [], _ => true
  | _ :: _, [] => false
  | c :: cs, d :: ds => c == d && listIsPfx cs ds

def pyStartsWith (s p : String) : Bool := listIsPfx p.data s.data

/-- The single-quote character, written out to keep quoting uniform. -/
def squote : String := String.mk [Char.ofNat 39]

/-! ### JSON values (the audit document) -/

inductive JValue where
  | null
  | bool (b : Bool)
  | int (n : Int)
  | str (s : String)
  | arr (elems : List JValue)
  | obj (fields : List (String × JValue))
deriving Repr

/-- Python truthiness of a JSON value. -/
def truthy : JValue → Bool
  | .null => false
  | .bool b => b
  | .int n => n != 0
  | .str s => s != ""
  | .arr xs => !xs.isEmpty
  | .obj fs => !fs.isEmpty

mutual
/-- Python `repr` of a JSON value (escape sequences inside quoted strings are
not modelled). -/
def pyRepr : JValue → String
  | .null => "None"
  | .bool true => "True"
  | .bool false => "False"
  | .int n => toString n
  | .str s => squote ++ s ++ squote
  | .arr xs => "[" ++ String.intercalate ", " (pyReprList xs) ++ "]"
  | .obj fs => "\x7b" ++ String.intercalate ", " (pyReprFields fs) ++ "\x7d"

def pyReprList : List JValue → List String
  | [] => []
  | x :: xs => pyRepr x :: pyReprList xs

def pyReprFields : List (String × JValue) → List String
  | [] => []
  | (k, v) :: fs => (squote ++ k ++ squote ++ ": " ++ pyRepr v) :: pyReprFields fs
end

/-- Python `str` of a JSON value. -/
def pyStr : JValue → String
  | .str s => s
  | v => pyRepr v

/-- Python `dict.get k` on a JSON object's field list (last binding wins,
as later assignments overwrite earlier ones). -/
def aget (fs : List (String × JValue)) (k : String) : JValue :=
  match (fs.filter (fun p => p.1 == k)).getLast? with
  | some p => p.2
  | none => .null

/-- Python `dict.get k default`. -/
def agetD (fs : List (String × JValue)) (k : String) (d : JValue) : JValue :=
  match (fs.filter (fun p => p.1 == k)).getLast? with
  | some p => p.2
  | none => d

/-- Python `v.get k` on an arbitrary value: raises `AttributeError` unless
`v` is a dict. -/
def jgetE (v : JValue) (k : String) : Except String JValue :=
  match v with
  | .obj fs => .ok (aget fs k)
  | _ => .error "AttributeError: get"

/-- Python `a or b`. -/
def pyOr (a b : JValue) : JValue := if truthy a then a else b

/-- Python subscripting `v[0]`: works on non-empty sequences, raises
otherwise (`KeyError` on dicts, which have no integer keys in JSON input,
`TypeError` on scalars). -/
def pySubscript0 (v : JValue) : Except String JValue :=
  match v with
  | .arr (x :: _) => .ok x
  | .arr [] => .error "IndexError"
  | .str s =>
    match s.data with
    | c :: _ => .ok (.str (String.mk [c]))
    | [] => .error "IndexError"
  | .obj _ => .error "KeyError"
  | _ => .error "TypeError"

/-! ### Dates -/

/-- A Python `datetime.date`. -/
structure PDate where
  year : Nat
  month : Nat
  day : Nat
deriving Repr, DecidableEq

def isLeap (y : Nat) : Bool := y % 4 == 0 && (y % 100 != 0 || y % 400 == 0)

def daysInMonth (y m : Nat) : Nat :=
  if m == 2 then (if isLeap y then 29 else 28)
  else if m == 4 || m == 6 || m == 9 || m == 11 then 30
  else 31

def digit? (c : Char) : Option Nat :=
  if 48 ≤ c.toNat ∧ c.toNat ≤ 57 then some (c.toNat - 48) else none

/-- Python `date.fromisoformat` on the canonical `YYYY-MM-DD` dialect,
wrapped in the script's `parse_date` (invalid values become `None`). -/
def parse_date (value : String) : Option PDate :=
  match value.data with
  | [y1, y2, y3, y4, h1, m1, m2, h2, d1, d2] =>
    match digit? y1, digit? y2, digit? y3, digit? y4,
          digit? m1, digit? m2, digit? d1, digit? d2 with
    | some a, some b, some c, some d, some e, some f, some g, some h =>
      if h1 = '-' ∧ h2 = '-' then
        let y := a * 1000 + b * 100 + c * 10 + d
        let m := e * 10 + f
        let dd := g * 10 + h
        if 1 ≤ y ∧ 1 ≤ m ∧ m ≤ 12 ∧ 1 ≤ dd ∧ dd ≤ daysInMonth y m then
          some ⟨y, m, dd⟩
        else none
      else none
    | _, _, _, _, _, _, _, _ => none
  | _ => none

/-- Python's `<` on dates: lexicographic on (year, month, day). -/
def PDate.lt (a b : PDate) : Bool :=
  decide (a.year < b.year ∨ (a.year = b.year ∧
    (a.month < b.month ∨ (a.month = b.month ∧ a.day < b.day))))

def padNum (width n : Nat) : String :=
  let s := toString n
  String.mk (List.replicate (width - s.length) '0') ++ s

/-- Python `date.isoformat`. -/
def PDate.isoformat (d : PDate) : String :=
  padNum 4 d.year ++ "-" ++ padNum 2 d.month ++ "-" ++ padNum 2 d.day

/-! ### The exception-list parser -/

/-- A raw exception record: the sequence of `key, value` assignments made to
the record's dict, in order (lookups take the last binding for a key). -/
abbrev Record := List (String × String)

/-- Python dict lookup `exc.get k` on a raw record. -/
def dget (exc : Record) (k : String) : Option String :=
  ((exc.filter (fun p => p.1 == k)).getLast?).map (fun p => p.2)

/-- Python `exc.get k d`. -/
def dgetD (exc : Record) (k d : String) : String := (dget exc k).getD d

/-- Truthiness of `exc.get k` (absent or empty are falsy). -/
def truthyOS : Option String → Bool
  | none => false
  | some s => s != ""

def optToJ : Option String → JValue
  | none => .null
  | some s => .str s

/-- Splits a character list at the first colon, like `line.split(":", 1)`;
`none` when there is no colon (where Python's tuple unpacking would raise). -/
def splitFirstColon : List Char → Option (List Char × List Char)
  | [] => none
  | c :: cs =>
    if c = ':' then some ([], cs)
    else
      match splitFirstColon cs with
      | some (k, v) => some (c :: k, v)
      | none => none

/-- Removes one pair of matching wrapping quotes, as in `split_kv`. -/
def stripQuotes (value : String) : String :=
  match value.data.head?, value.data.getLast? with
  | some a, some b =>
    if (a = '"' ∧ b = '"') ∨ (a = Char.ofNat 39 ∧ b = Char.ofNat 39) then
      String.mk ((value.data.drop 1).dropLast)
    else value
  | _, _ => value

/-- `split_kv` from the script; `none` models the `ValueError` raised when
the line has no colon. -/
def split_kv (line : String) : Option (String × String) :=
  match splitFirstColon line.data with
  | none => none
  | some (k, v) => some (pyStrip (String.mk k), stripQuotes (pyStrip (String.mk v)))

/-- One iteration of the `parse_exceptions` line loop.  State: records
flushed so far, and the currently open record (`none` before the first `- `
marker). -/
def parseStep (st : List Record × Option Record) (raw : String) :
    Except String (List Record × Option Record) :=
  let line := pyStrip raw
  if line == "" || pyStartsWith line "#" then .ok st
  else if pyStartsWith line "version:" || pyStartsWith line "exceptions:" then .ok st
  else if pyStartsWith line "- " then
    let excs :=
      match st.2 with
      | some r => if !r.isEmpty then st.1 ++ [r] else st.1
      | none => st.1
    let rest := pyStrip (String.mk (line.data.drop 2))
    if rest == "" then .ok (excs, some [])
    else
      match split_kv rest with
      | some kv => .ok (excs, some [kv])
      | none => .error "ValueError: not enough values to unpack"
  else
    match st.2 with
    | some r =>
      match split_kv line with
      | some kv => .ok (st.1, some (r ++ [kv]))
      | none => .ok st
    | none => .ok st

/-- `parse_exceptions` over the file's lines. -/
def parse_exceptions (lines : List String) : Except String (List Record) :=
  match lines.foldlM parseStep ([], none) with
  | .error e => .error e
  | .ok (excs, some r) => if !r.isEmpty then .ok (excs ++ [r]) else .ok excs
  | .ok (excs, none) => .ok excs

/-! ### Key normalization -/

def normalize_package (name : JValue) : String :=
  match name with
  | .null => ""
  | v => pyStrip (pyStr v)

def normalize_advisory (advisory : JValue) : String :=
  match advisory with
  | .null => ""
  | v => pyLower (pyStrip (pyStr v))

/-- `normalize_severity` on an exception-record field, where the value is
always a string (or absent, which Python's `or ""` turns into `""`). -/
def normalizeSeverityStr (severity : String) : String := pyLower (pyStrip severity)

/-- `normalize_severity` on a finding's severity, which can be any JSON
value; truthy non-strings raise `AttributeError` on `.strip()`. -/
def normalize_severity (severity : JValue) : Except String String :=
  if truthy severity then
    match severity with
    | .str s => .ok (pyLower (pyStrip s))
    | _ => .error "AttributeError: strip"
  else .ok ""

/-! ### The audit-report normalizer -/

/-- One element of `iter_vulns`'s yielded stream. -/
structure Finding where
  name : JValue
  severity : JValue
  advisoryId : JValue
  title : JValue
deriving Repr

/-- `pick_advisory_id` on a legacy advisory dict. -/
def pick_advisory_id (fs : List (String × JValue)) : Except String JValue :=
  let c1 := aget fs "github_advisory_id"
  if truthy c1 then .ok c1 else
  let c2 := aget fs "url"
  if truthy c2 then .ok c2 else
  let cves := aget fs "cves"
  match (if truthy cves then pySubscript0 cves else .ok JValue.null) with
  | .error e => .error e
  | .ok c3 =>
    if truthy c3 then .ok c3 else
    let c4 := match aget fs "id" with
      | .null => JValue.null
      | v => JValue.str (pyStr v)
    if truthy c4 then .ok c4 else
    let c5 := aget fs "title"
    if truthy c5 then .ok c5 else
    let c6 := aget fs "advisory"
    if truthy c6 then .ok c6 else
    .ok (aget fs "overview")

/-- One legacy-shape (`advisories`) entry. -/
def legacyFinding (advisory : JValue) : Except String Finding :=
  match advisory with
  | .obj fs =>
    match pick_advisory_id fs with
    | .error e => .error e
    | .ok advisoryId =>
      .ok ⟨pyOr (aget fs "module_name") (aget fs "name"),
           aget fs "severity",
           advisoryId,
           pyOr (aget fs "title")
             (pyOr (aget fs "advisory") (pyOr (aget fs "overview") (aget fs "url")))⟩
  | _ => .error "AttributeError"

/-- Advisory-identifier resolution for one record item of `via`. -/
def viaItemAdvisory (ifs : List (String × JValue)) : JValue :=
  pyOr (aget ifs "github_advisory_id")
    (pyOr (aget ifs "url") (pyOr (aget ifs "source") (pyOr (aget ifs "title") (aget ifs "name"))))

/-- Title-fragment resolution for one record item of `via`. -/
def viaItemTitle (ifs : List (String × JValue)) : JValue :=
  pyOr (aget ifs "title")
    (pyOr (aget ifs "url") (pyOr (aget ifs "advisory") (aget ifs "source")))

/-- The `advisories`/`titles` accumulation over a `via` value. -/
def viaLists (via : JValue) : List JValue × List JValue :=
  match via with
  | .arr items =>
    items.foldl (fun acc item =>
      match item with
      | .obj ifs => (acc.1 ++ [viaItemAdvisory ifs], acc.2 ++ [viaItemTitle ifs])
      | .str s => (acc.1 ++ [.str s], acc.2 ++ [.str s])
      | _ => acc) ([], [])
  | .str s => ([.str s], [.str s])
  | _ => ([], [])

def viaAdvisories (vuln : JValue) : List JValue :=
  match vuln with
  | .obj fs => (viaLists (agetD fs "via" (.arr []))).1
  | _ => []

def viaTitles (vuln : JValue) : List JValue :=
  match vuln with
  | .obj fs => (viaLists (agetD fs "via" (.arr []))).2
  | _ => []

/-- Python `"; ".join([t for t in titles if t])`; truthy non-string
fragments raise `TypeError`. -/
def joinTitles (titles : List JValue) : Except String String :=
  match (titles.filter truthy).mapM (fun t =>
      match t with
      | JValue.str s => Except.ok s
      | _ => Except.error "TypeError: join") with
  | .error e => .error e
  | .ok ts => .ok (String.intercalate "; " ts)

/-- All findings yielded for one modern-shape (`vulnerabilities`) entry. -/
def modernYield (name : String) (vuln : JValue) : Except String (List Finding) :=
  match vuln with
  | .obj fs =>
    let lists := viaLists (agetD fs "via" (.arr []))
    match joinTitles lists.2 with
    | .error e => .error e
    | .ok title =>
      .ok ((lists.1.filter truthy).map
        (fun a => ⟨.str name, aget fs "severity", a, .str title⟩))
  | _ => .error "AttributeError"

/-- `iter_vulns`: legacy-shape findings followed by modern-shape findings. -/
def iterVulns (data : JValue) : Except String (List Finding) :=
  match jgetE data "advisories" with
  | .error e => .error e
  | .ok adv =>
    let legacyRes : Except String (List Finding) :=
      match adv with
      | .obj fs => fs.mapM (fun p => legacyFinding p.2)
      | _ => .ok []
    match legacyRes with
    | .error e => .error e
    | .ok legacy =>
      match jgetE data "vulnerabilities" with
      | .error e => .error e
      | .ok vul =>
        match vul with
        | .obj fs =>
          match fs.mapM (fun p => modernYield p.1 p.2) with
          | .error e => .error e
          | .ok ls => .ok (legacy ++ ls.flatten)
        | _ => .ok legacy

/-! ### The policy evaluator (`main`'s two loops) -/

def REQUIRED_FIELDS : List String :=
  ["package", "advisory", "severity", "mitigation", "expires_on"]

def HIGH_SEVERITIES : List String := ["high", "critical"]

/-- One entry of the exception index. -/
structure ExcEntry where
  severity : String
  expiresOn : PDate
deriving Repr, DecidableEq

abbrev Index := List ((String × String) × ExcEntry)

def lookupIdx : Index → (String × String) → Option ExcEntry
  | [], _ => none
  | (k, e) :: rest, key => if k == key then some e else lookupIdx rest key

/-- Membership in the `seen` set. -/
def memKey : List (String × String) → (String × String) → Bool
  | [], _ => false
  | k :: rest, key => k == key || memKey rest key

/-- Python `repr` of the list of missing field names. -/
def fmtFieldList (fields : List String) : String :=
  "[" ++ String.intercalate ", " (fields.map (fun f => squote ++ f ++ squote)) ++ "]"

/-- The body of `main`'s exception-index loop, for one raw record. -/
def buildStep (st : Index × List String) (exc : Record) : Index × List String :=
  let missing := REQUIRED_FIELDS.filter (fun f => !(truthyOS (dget exc f)))
  if !missing.isEmpty then
    (st.1, st.2 ++ ["Exception missing required fields " ++ fmtFieldList missing ++
      ": " ++ dgetD exc "package" "<unknown>"])
  else
    match parse_date ((dget exc "expires_on").getD "") with
    | none =>
      (st.1, st.2 ++ ["Exception has invalid expires_on date: " ++
        dgetD exc "package" "<unknown>"])
    | some excDate =>
      let excPackage := normalize_package (optToJ (dget exc "package"))
      let excAdvisory := normalize_advisory (optToJ (dget exc "advisory"))
      if excPackage == "" || excAdvisory == "" then
        (st.1, st.2 ++ ["Exception missing package or advisory value"])
      else if (lookupIdx st.1 (excPackage, excAdvisory)).isSome then
        (st.1, st.2 ++ ["Duplicate exception for " ++ excPackage ++ " advisory " ++
          pyStr (optToJ (dget exc "advisory"))])
      else
        (st.1 ++ [((excPackage, excAdvisory),
          ⟨normalizeSeverityStr ((dget exc "severity").getD ""), excDate⟩)], st.2)

def buildIndex (excs : List Record) : Index × List String :=
  excs.foldl buildStep ([], [])

/-- The state threaded through `main`'s findings loop. -/
structure EvalSt where
  seen : List (String × String)
  errors : List String
  missing : List (JValue × String × JValue × JValue)
  expired : List (JValue × String × JValue × String)
deriving Repr

/-- The deduplication key of a finding. -/
def findingKey (f : Finding) : String × String :=
  (normalize_package f.name, normalize_advisory f.advisoryId)

/-- The body of `main`'s findings loop, for one finding. -/
def evalStep (today : PDate) (index : Index) (st : EvalSt) (f : Finding) :
    Except String EvalSt :=
  match normalize_severity f.severity with
  | .error e => .error e
  | .ok sev =>
    if !(HIGH_SEVERITIES.contains sev) || !(truthy f.name) then .ok st
    else
      let advisoryKey := normalize_advisory f.advisoryId
      if advisoryKey == "" then
        .ok { st with errors := st.errors ++
          ["High/Critical vulnerability missing advisory id: " ++ pyStr f.name ++
            " (" ++ sev ++ ")"] }
      else
        let key := (normalize_package f.name, advisoryKey)
        if memKey st.seen key then .ok st
        else
          let st1 := { st with seen := st.seen ++ [key] }
          match lookupIdx index key with
          | none =>
            .ok { st1 with missing := st1.missing ++ [(f.name, sev, f.advisoryId, f.title)] }
          | some exc =>
            let st2 :=
              if exc.severity != "" && exc.severity != sev then
                { st1 with errors := st1.errors ++
                  ["Exception severity mismatch: " ++ pyStr f.name ++ " (" ++
                    pyStr f.advisoryId ++ ") expected " ++ sev ++ ", got " ++ exc.severity] }
              else st1
            let st3 :=
              if PDate.lt exc.expiresOn today then
                { st2 with expired := st2.expired ++
                  [(f.name, sev, f.advisoryId, exc.expiresOn.isoformat)] }
              else st2
            .ok st3

def evalFold (today : PDate) (index : Index) (st : EvalSt) (fs : List Finding) :
    Except String EvalSt :=
  fs.foldlM (evalStep today index) st

/-! ### The report builder -/

def missingBlock (ms : List (JValue × String × JValue × JValue)) : List String :=
  if ms.isEmpty then []
  else
    "High/Critical vulnerabilities missing exceptions:" ::
      ms.map (fun (name, sev, aid, title) =>
        let label := pyStr name ++ " (" ++ sev ++ ")"
        let label := if truthy aid then label ++ " [" ++ pyStr aid ++ "]" else label
        let label := if truthy title then label ++ ": " ++ pyStr title else label
        "- " ++ label)

def expiredBlock (xs : List (JValue × String × JValue × String)) : List String :=
  if xs.isEmpty then []
  else
    "Exceptions expired:" ::
      xs.map (fun (name, sev, aid, iso) =>
        "- " ++ pyStr name ++ " (" ++ sev ++ ") [" ++ pyStr aid ++ "] expired on " ++ iso)

/-- The full list of diagnostic lines `main` accumulates in `errors` before
deciding the exit code.  Inputs: the parsed audit document, the exception
file's lines, and the evaluation date (`date.today()`, read once). -/
def collectReport (audit : JValue) (excLines : List String) (today : PDate) :
    Except String (List String) :=
  match parse_exceptions excLines with
  | .error e => .error e
  | .ok excs =>
    let built := buildIndex excs
    match iterVulns audit with
    | .error e => .error e
    | .ok findings =>
      match evalFold today built.1 ⟨[], built.2, [], []⟩ findings with
      | .error e => .error e
      | .ok st => .ok (st.errors ++ missingBlock st.missing ++ expiredBlock st.expired)

/-- The observable outcome of a successfully completed run. -/
structure RunResult where
  exitCode : Nat
  stdout : String
  stderr : String
deriving Repr, DecidableEq

/-- `main`'s tail: exit 1 with the joined report on stderr when any line was
produced, exit 0 with the confirmation line on stdout otherwise. -/
def runMain (audit : JValue) (excLines : List String) (today : PDate) :
    Except String RunResult :=
  match collectReport audit excLines today with
  | .error e => .error e
  | .ok errors =>
    if !errors.isEmpty then .ok ⟨1, "", String.intercalate "\n" errors ++ "\n"⟩
    else .ok ⟨0, "Audit exceptions validated.\n", ""⟩

/-! ### Fixtures used by concrete counterexamples and witnesses -/

/-- Exception file: one well-formed entry for (lodash, adv1), severity
critical, far-future expiry. -/
def c1Lines : List String :=
  ["exceptions:",
   "- package: lodash",
   "  advisory: ADV1",
   "  severity: critical",
   "  mitigation: none",
   "  expires_on: 2099-01-01"]

/-- Audit: first a finding that matches the exception with the wrong severity,
then a finding whose advisory identifier normalizes to empty. -/
def c1Audit : JValue :=
  .obj [("vulnerabilities", .obj [
    ("lodash", .obj [("severity", .str "high"), ("via", .arr [.str "ADV1"])]),
    ("foo", .obj [("severity", .str "high"), ("via", .arr [.str " "])])])]

def c4Fs : List (String × JValue) :=
  [("severity", JValue.str "high"),
   ("via", JValue.arr [JValue.str "CVE-X", JValue.str "CVE-X"])]

def c4wFs : List (String × JValue) :=
  [("severity", JValue.str "critical"),
   ("via", JValue.arr
     [JValue.obj [("source", JValue.int 123), ("title", JValue.str "Proto pollution")],
      JValue.str "GHSA-1"])]

def c4wRes : List Finding :=
  [⟨.str "minimist", .str "critical", .int 123, .str "Proto pollution; GHSA-1"⟩,
   ⟨.str "minimist", .str "critical", .str "GHSA-1", .str "Proto pollution; GHSA-1"⟩]

def c5F : Finding := ⟨.str "lodash", .str "high", .str "ADV1", .str "t"⟩

def c5St : EvalSt := ⟨[], [], [], []⟩

def c5Entry1 : ExcEntry := ⟨"high", ⟨2024, 5, 10⟩⟩

def c5Entry2 : ExcEntry := ⟨"high", ⟨2024, 5, 9⟩⟩

def c5Idx1 : Index := [(("lodash", "adv1"), c5Entry1)]

def c5Idx2 : Index := [(("lodash", "adv1"), c5Entry2)]

def c6Entry : ExcEntry := ⟨"critical", ⟨2024, 5, 9⟩⟩

def c6Idx : Index := [(("lodash", "adv1"), c6Entry)]

def c3GoodRec : Record :=
  [("package", "lodash"), ("advisory", "ADV1"), ("severity", "high"),
   ("mitigation", "fix later"), ("expires_on", "2099-01-01")]

def c3BadRec : Record :=
  [("package", "lodash"), ("advisory", "ADV1"), ("severity", "high"),
   ("expires_on", "2099-01-01")]

def c10F : Finding := ⟨.str "", .str "critical", .str "GHSA-9", .str "t"⟩

def c7F : Finding := ⟨.str "lodash", .str "high", .str "ADV1", .str "t1"⟩

def c7G : Finding := ⟨.str " lodash", .str "critical", .str "adv1", .str "t2"⟩

/-! ### Line classifiers for the report-order statements -/

def isMalformedExceptionLine (s : String) : Bool :=
  pyStartsWith s "Exception missing required fields " ||
  pyStartsWith s "Exception has invalid expires_on date: " ||
  s == "Exception missing package or advisory value" ||
  pyStartsWith s "Duplicate exception for "

def isMissingAdvisoryLine (s : String) : Bool :=
  pyStartsWith s "High/Critical vulnerability missing advisory id: "

def isSeverityMismatchLine (s : String) : Bool :=
  pyStartsWith s "Exception severity mismatch: "

def isFindingErrorLine (s : String) : Bool :=
  isMissingAdvisoryLine s || isSeverityMismatchLine s

/-- The claim-side validity condition for inserting a raw exception record
into the index (C3's wording). -/
def excKey (exc : Record) : String × String :=
  (normalize_package (optToJ (dget exc "package")),
   normalize_advisory (optToJ (dget exc "advisory")))

def excValid (index : Index) (exc : Record) : Bool :=
  REQUIRED_FIELDS.all (fun f => truthyOS (dget exc f)) &&
  (parse_date ((dget exc "expires_on").getD "")).isSome &&
  ((excKey exc).1 != "") &&
  ((excKey exc).2 != "") &&
  (lookupIdx index (excKey exc)).isNone

/-! ### Character-level lemmas for case and whitespace -/

theorem pyIsSpace_pyLowerChar (c : Char) : pyIsSpace (pyLowerChar c) = pyIsSpace c := by
  unfold pyLowerChar; split <;> rfl

theorem pyIsSpace_pyUpperChar (c : Char) : pyIsSpace (pyUpperChar c) = pyIsSpace c := by
  unfold pyUpperChar; split <;> rfl

theorem pyLowerChar_of_space (c : Char) (h : pyIsSpace c = true) : pyLowerChar c = c := by
  unfold pyLowerChar
  split
  all_goals first | rfl | exact absurd h (by decide)

theorem pyLowerChar_pyUpperChar (c : Char) :
    pyLowerChar (pyUpperChar c) = pyLowerChar c := by
  unfold pyUpperChar
  split
  all_goals rfl

theorem space_eq_of_lower_eq {c c' : Char} (h : pyLowerChar c = pyLowerChar c') :
    pyIsSpace c = pyIsSpace c' := by
  rw [← pyIsSpace_pyLowerChar c, ← pyIsSpace_pyLowerChar c', h]

theorem char_eq_of_lower_eq_space {c c' : Char} (h : pyLowerChar c = pyLowerChar c')
    (hs : pyIsSpace c = true) : c = c' := by
  have hs' : pyIsSpace c' = true := by rw [← space_eq_of_lower_eq h]; exact hs
  rw [← pyLowerChar_of_space c hs, h, pyLowerChar_of_space c' hs']

/-! ### List-level lemmas for strip and case -/

theorem dropWhile_map_pyUpperChar (l : List Char) :
    (l.map pyUpperChar).dropWhile pyIsSpace = (l.dropWhile pyIsSpace).map pyUpperChar := by
  induction l with
  | nil => rfl
  | cons c cs ih =>
    simp only [List.map_cons, List.dropWhile_cons, pyIsSpace_pyUpperChar]
    by_cases h : pyIsSpace c = true
    · simp [h, ih]
    · simp [h]

theorem stripL_map_pyUpperChar (l : List Char) :
    stripL (l.map pyUpperChar) = (stripL l).map pyUpperChar := by
  unfold stripL
  rw [dropWhile_map_pyUpperChar, ← List.map_reverse, dropWhile_map_pyUpperChar,
    ← List.map_reverse]

theorem map_lower_upper (l : List Char) :
    (l.map pyUpperChar).map pyLowerChar = l.map pyLowerChar := by
  rw [List.map_map]
  exact List.map_congr_left (fun c _ => pyLowerChar_pyUpperChar c)

theorem takeWhile_dropWhile_of_lower_eq :
    ∀ (l l' : List Char), l.map pyLowerChar = l'.map pyLowerChar →
      l.takeWhile pyIsSpace = l'.takeWhile pyIsSpace ∧
      (l.dropWhile pyIsSpace).map pyLowerChar = (l'.dropWhile pyIsSpace).map pyLowerChar := by
  intro l
  induction l with
  | nil =>
    intro l' h
    cases l' with
    | nil => exact ⟨rfl, rfl⟩
    | cons c cs => simp at h
  | cons c cs ih =>
    intro l' h
    cases l' with
    | nil => simp at h
    | cons c' cs' =>
      simp only [List.map_cons, List.cons.injEq] at h
      obtain ⟨hc, hcs⟩ := h
      by_cases hws : pyIsSpace c = true
      · have hws' : pyIsSpace c' = true := by rw [← space_eq_of_lower_eq hc]; exact hws
        have hcc : c = c' := char_eq_of_lower_eq_space hc hws
        obtain ⟨ih1, ih2⟩ := ih cs' hcs
        constructor
        · rw [List.takeWhile_cons, List.takeWhile_cons, hws, hws', hcc, ih1]
        · rw [List.dropWhile_cons, List.dropWhile_cons, hws, hws']
          simpa using ih2
      · have hws' : ¬ pyIsSpace c' = true := by rw [← space_eq_of_lower_eq hc]; exact hws
        constructor
        · rw [List.takeWhile_cons, List.takeWhile_cons,
            Bool.eq_false_iff.mpr hws, Bool.eq_false_iff.mpr hws']
          rfl
        · rw [List.dropWhile_cons, List.dropWhile_cons,
            Bool.eq_false_iff.mpr hws, Bool.eq_false_iff.mpr hws']
          simp [hc, hcs]

theorem stripL_inj_of_lower_eq {l l' : List Char}
    (h : l.map pyLowerChar = l'.map pyLowerChar) (hs : stripL l = stripL l') :
    l = l' := by
  obtain ⟨t1, t2⟩ := takeWhile_dropWhile_of_lower_eq l l' h
  have hrev : (l.dropWhile pyIsSpace).reverse.map pyLowerChar =
      (l'.dropWhile pyIsSpace).reverse.map pyLowerChar := by
    rw [List.map_reverse, List.map_reverse, t2]
  obtain ⟨t3, t4⟩ := takeWhile_dropWhile_of_lower_eq _ _ hrev
  have e1 : (l.dropWhile pyIsSpace).reverse.dropWhile pyIsSpace =
      (l'.dropWhile pyIsSpace).reverse.dropWhile pyIsSpace := by
    unfold stripL at hs
    exact List.reverse_injective hs
  have hdd : l.dropWhile pyIsSpace = l'.dropWhile pyIsSpace := by
    have hr : (l.dropWhile pyIsSpace).reverse = (l'.dropWhile pyIsSpace).reverse := by
      conv_lhs => rw [← List.takeWhile_append_dropWhile pyIsSpace
        (l.dropWhile pyIsSpace).reverse]
      conv_rhs => rw [← List.takeWhile_append_dropWhile pyIsSpace
        (l'.dropWhile pyIsSpace).reverse]
      rw [t3, e1]
    exact List.reverse_injective hr
  calc l = l.takeWhile pyIsSpace ++ l.dropWhile pyIsSpace :=
        (List.takeWhile_append_dropWhile pyIsSpace l).symm
    _ = l'.takeWhile pyIsSpace ++ l'.dropWhile pyIsSpace := by rw [t1, hdd]
    _ = l' := List.takeWhile_append_dropWhile pyIsSpace l'

/-! ### Prefix and lookup helpers -/

theorem listIsPfx_append (p r : List Char) : listIsPfx p (p ++ r) = true := by
  induction p with
  | nil => rfl
  | cons c cs ih => simp [listIsPfx, ih]

theorem listIsPfx_append_right (p : List Char) :
    ∀ (l r : List Char), listIsPfx p l = true → listIsPfx p (l ++ r) = true := by
  induction p with
  | nil => intro l r _; rfl
  | cons c cs ih =>
    intro l r h
    cases l with
    | nil => simp [listIsPfx] at h
    | cons d ds =>
      simp only [listIsPfx, Bool.and_eq_true] at h
      simp only [List.cons_append, listIsPfx, Bool.and_eq_true]
      exact ⟨h.1, ih ds r h.2⟩

theorem pyStartsWith_append (p r : String) : pyStartsWith (p ++ r) p = true := by
  unfold pyStartsWith
  rw [String.data_append]
  exact listIsPfx_append p.data r.data

theorem pyStartsWith_append_right (s t p : String) (h : pyStartsWith s p = true) :
    pyStartsWith (s ++ t) p = true := by
  unfold pyStartsWith at h ⊢
  rw [String.data_append]
  exact listIsPfx_append_right p.data s.data t.data h

theorem lookupIdx_append_of_some {index : Index} {k : String × String} {v : ExcEntry}
    (h : lookupIdx index k = some v) (tail : Index) :
    lookupIdx (index ++ tail) k = some v := by
  induction index with
  | nil => simp [lookupIdx] at h
  | cons e rest ih =>
    obtain ⟨ke, ve⟩ := e
    by_cases hk : (ke == k) = true
    · simp only [lookupIdx, hk, if_true] at h
      simp only [List.cons_append, lookupIdx, hk, if_true]
      exact h
    · simp only [lookupIdx, hk, if_false] at h
      simp only [List.cons_append, lookupIdx, hk, if_false]
      exact ih h

theorem memKey_append_self (l : List (String × String)) (k : String × String) :
    memKey (l ++ [k]) k = true := by
  induction l with
  | nil => simp [memKey]
  | cons a as ih => simp [memKey, ih]

theorem filter_not_isEmpty_eq_all (p : String → Bool) (l : List String) :
    (l.filter (fun a => !p a)).isEmpty = l.all p := by
  induction l with
  | nil => rfl
  | cons a as ih =>
    cases hpa : p a
    · simp [List.filter_cons, hpa]
    · simp [List.filter_cons, hpa, ih]

/-! ### Structural lemmas on the two loop bodies -/

theorem buildStep_errors (st : Index × List String) (exc : Record) :
    ∃ extra, (buildStep st exc).2 = st.2 ++ extra ∧
      ∀ s ∈ extra, isMalformedExceptionLine s = true := by
  unfold buildStep
  dsimp only
  split
  · refine ⟨_, rfl, ?_⟩
    intro s hs
    simp only [List.mem_singleton] at hs
    subst hs
    simp only [isMalformedExceptionLine, Bool.or_eq_true]
    exact Or.inl (Or.inl (Or.inl (pyStartsWith_append_right _ _ _
      (pyStartsWith_append_right _ _ _ (pyStartsWith_append _ _)))))
  · split
    · refine ⟨_, rfl, ?_⟩
      intro s hs
      simp only [List.mem_singleton] at hs
      subst hs
      simp only [isMalformedExceptionLine, Bool.or_eq_true]
      exact Or.inl (Or.inl (Or.inr (pyStartsWith_append _ _)))
    · split
      · refine ⟨_, rfl, ?_⟩
        intro s hs
        simp only [List.mem_singleton] at hs
        subst hs
        simp [isMalformedExceptionLine]
      · split
        · refine ⟨_, rfl, ?_⟩
          intro s hs
          simp only [List.mem_singleton] at hs
          subst hs
          simp only [isMalformedExceptionLine, Bool.or_eq_true]
          exact Or.inr (pyStartsWith_append_right _ _ _
            (pyStartsWith_append_right _ _ _ (pyStartsWith_append _ _)))
        · exact ⟨[], (List.append_nil _).symm, by simp⟩

theorem buildFold_errors (excs : List Record) :
    ∀ (st : Index × List String),
      ∃ extra, (excs.foldl buildStep st).2 = st.2 ++ extra ∧
        ∀ s ∈ extra, isMalformedExceptionLine s = true := by
  induction excs with
  | nil => exact fun st => ⟨[], (List.append_nil _).symm, by simp⟩
  | cons exc rest ih =>
    intro st
    obtain ⟨e1, he1, hc1⟩ := buildStep_errors st exc
    obtain ⟨e2, he2, hc2⟩ := ih (buildStep st exc)
    refine ⟨e1 ++ e2, ?_, ?_⟩
    · rw [List.foldl_cons, he2, he1, List.append_assoc]
    · intro s hs
      rcases List.mem_append.mp hs with h | h
      · exact hc1 s h
      · exact hc2 s h

theorem evalStep_errors (today : PDate) (index : Index) (st : EvalSt) (f : Finding)
    (st' : EvalSt) (h : evalStep today index st f = .ok st') :
    ∃ extra, st'.errors = st.errors ++ extra ∧
      ∀ s ∈ extra, isFindingErrorLine s = true := by
  unfold evalStep at h
  dsimp only at h
  split at h
  · exact absurd h (by simp)
  · split at h
    · simp only [Except.ok.injEq] at h
      subst h
      exact ⟨[], (List.append_nil _).symm, by simp⟩
    · split at h
      · simp only [Except.ok.injEq] at h
        subst h
        refine ⟨_, rfl, ?_⟩
        intro s hs
        simp only [List.mem_singleton] at hs
        subst hs
        simp only [isFindingErrorLine, isMissingAdvisoryLine, Bool.or_eq_true]
        exact Or.inl (pyStartsWith_append_right _ _ _
          (pyStartsWith_append_right _ _ _ (pyStartsWith_append_right _ _ _
            (pyStartsWith_append _ _))))
      · split at h
        · simp only [Except.ok.injEq] at h
          subst h
          exact ⟨[], (List.append_nil _).symm, by simp⟩
        · split at h
          · simp only [Except.ok.injEq] at h
            subst h
            exact ⟨[], (List.append_nil _).symm, by simp⟩
          · split at h
            · split at h
              · simp only [Except.ok.injEq] at h
                subst h
                refine ⟨_, rfl, ?_⟩
                intro s hs
                simp only [List.mem_singleton] at hs
                subst hs
                simp only [isFindingErrorLine, isSeverityMismatchLine, Bool.or_eq_true]
                exact Or.inr (pyStartsWith_append_right _ _ _
                  (pyStartsWith_append_right _ _ _ (pyStartsWith_append_right _ _ _
                    (pyStartsWith_append_right _ _ _ (pyStartsWith_append_right _ _ _
                      (pyStartsWith_append _ _))))))
              · simp only [Except.ok.injEq] at h
                subst h
                exact ⟨[], (List.append_nil _).symm, by simp⟩
            · split at h
              · simp only [Except.ok.injEq] at h
                subst h
                refine ⟨_, rfl, ?_⟩
                intro s hs
                simp only [List.mem_singleton] at hs
                subst hs
                simp only [isFindingErrorLine, isSeverityMismatchLine, Bool.or_eq_true]
                exact Or.inr (pyStartsWith_append_right _ _ _
                  (pyStartsWith_append_right _ _ _ (pyStartsWith_append_right _ _ _
                    (pyStartsWith_append_right _ _ _ (pyStartsWith_append_right _ _ _
                      (pyStartsWith_append _ _))))))
              · simp only [Except.ok.injEq] at h
                subst h
                exact ⟨[], (List.append_nil _).symm, by simp⟩

theorem evalStep_skip_of_filtered (today : PDate) (index : Index) (st : EvalSt)
    (f : Finding) (sev : String)
    (hsev : normalize_severity f.severity = .ok sev)
    (hcond : (!(HIGH_SEVERITIES.contains sev) || !(truthy f.name)) = true) :
    evalStep today index st f = .ok st := by
  unfold evalStep
  rw [hsev]
  dsimp only
  rw [if_pos hcond]

theorem evalStep_skip_of_seen (today : PDate) (index : Index) (st : EvalSt)
    (f : Finding) (sev : String)
    (hsev : normalize_severity f.severity = .ok sev)
    (hkey : (normalize_advisory f.advisoryId == "") = false)
    (hseen : memKey st.seen (findingKey f) = true) :
    evalStep today index st f = .ok st := by
  unfold evalStep
  rw [hsev]
  dsimp only
  by_cases hcond : (!(HIGH_SEVERITIES.contains sev) || !(truthy f.name)) = true
  · rw [if_pos hcond]
  · rw [if_neg hcond, hkey]
    simp only [Bool.false_eq_true, if_false]
    simp only [findingKey] at hseen
    rw [hseen]
    simp

theorem evalStep_found (today : PDate) (index : Index) (st : EvalSt) (f : Finding)
    (sev : String) (entry : ExcEntry)
    (hsev : normalize_severity f.severity = .ok sev)
    (hhigh : HIGH_SEVERITIES.contains sev = true)
    (hname : truthy f.name = true)
    (hkey : (normalize_advisory f.advisoryId == "") = false)
    (hseen : memKey st.seen (findingKey f) = false)
    (hidx : lookupIdx index (findingKey f) = some entry) :
    evalStep today index st f = .ok
      { seen := st.seen ++ [findingKey f],
        errors := st.errors ++
          (if (entry.severity != "" && entry.severity != sev) = true then
            ["Exception severity mismatch: " ++ pyStr f.name ++ " (" ++
              pyStr f.advisoryId ++ ") expected " ++ sev ++ ", got " ++ entry.severity]
          else []),
        missing := st.missing,
        expired := st.expired ++
          (if PDate.lt entry.expiresOn today = true then
            [(f.name, sev, f.advisoryId, entry.expiresOn.isoformat)]
          else []) } := by
  unfold evalStep
  rw [hsev]
  dsimp only
  rw [if_neg (by rw [hhigh, hname]; decide), hkey]
  simp only [Bool.false_eq_true, if_false]
  simp only [findingKey] at hseen hidx
  rw [hseen]
  simp only [Bool.false_eq_true, if_false]
  rw [hidx]
  by_cases hm : (entry.severity != "" && entry.severity != sev) = true
  · by_cases hx : PDate.lt entry.expiresOn today = true
    · simp [hm, hx, findingKey]
    · simp [hm, hx, findingKey]
  · by_cases hx : PDate.lt entry.expiresOn today = true
    · simp [hm, hx, findingKey]
    · simp [hm, hx, findingKey]

theorem evalStep_seen_extends (today : PDate) (index : Index) (st : EvalSt)
    (f : Finding) (sev : String)
    (hsev : normalize_severity f.severity = .ok sev)
    (hhigh : HIGH_SEVERITIES.contains sev = true)
    (hname : truthy f.name = true)
    (hkey : (normalize_advisory f.advisoryId == "") = false)
    (hseen : memKey st.seen (findingKey f) = false) :
    ∃ st1, evalStep today index st f = .ok st1 ∧
      st1.seen = st.seen ++ [findingKey f] := by
  cases hidx : lookupIdx index (findingKey f) with
  | none =>
    refine ⟨⟨st.seen ++ [findingKey f], st.errors,
        st.missing ++ [(f.name, sev, f.advisoryId, f.title)], st.expired⟩, ?_, rfl⟩
    unfold evalStep
    rw [hsev]
    dsimp only
    rw [if_neg (by rw [hhigh, hname]; decide), hkey]
    simp only [Bool.false_eq_true, if_false]
    simp only [findingKey] at hseen hidx
    rw [hseen]
    simp only [Bool.false_eq_true, if_false]
    rw [hidx]
    rfl
  | some entry =>
    exact ⟨_, evalStep_found today index st f sev entry hsev hhigh hname hkey hseen hidx,
      rfl⟩

theorem evalFold_errors (today : PDate) (index : Index) :
    ∀ (fs : List Finding) (st st' : EvalSt),
      evalFold today index st fs = .ok st' →
      ∃ extra, st'.errors = st.errors ++ extra ∧
        ∀ s ∈ extra, isFindingErrorLine s = true := by
  intro fs
  induction fs with
  | nil =>
    intro st st' h
    simp only [evalFold, List.foldlM_nil] at h
    simp only [pure, Except.pure, Except.ok.injEq] at h
    subst h
    exact ⟨[], (List.append_nil _).symm, by simp⟩
  | cons f rest ih =>
    intro st st' h
    simp only [evalFold, List.foldlM_cons] at h
    cases hstep : evalStep today index st f with
    | error e =>
      rw [hstep] at h
      simp only [Bind.bind, Except.bind] at h
      exact absurd h (by simp)
    | ok st1 =>
      rw [hstep] at h
      simp only [Bind.bind, Except.bind] at h
      obtain ⟨e1, he1, hc1⟩ := evalStep_errors today index st f st1 hstep
      obtain ⟨e2, he2, hc2⟩ := ih st1 st' h
      refine ⟨e1 ++ e2, ?_, ?_⟩
      · rw [he2, he1, List.append_assoc]
      · intro s hs
        rcases List.mem_append.mp hs with hmem | hmem
        · exact hc1 s hmem
        · exact hc2 s hmem

theorem missingBlock_shape (ms : List (JValue × String × JValue × JValue)) :
    missingBlock ms = [] ∨
    ∃ tl, missingBlock ms = "High/Critical vulnerabilities missing exceptions:" :: tl ∧
      ∀ s ∈ tl, pyStartsWith s "- " = true := by
  unfold missingBlock
  split
  · exact Or.inl rfl
  · refine Or.inr ⟨_, rfl, ?_⟩
    intro s hs
    simp only [List.mem_map] at hs
    obtain ⟨e, _, he⟩ := hs
    obtain ⟨name, sev, aid, title⟩ := e
    rw [← he]
    exact pyStartsWith_append _ _

theorem expiredBlock_shape (xs : List (JValue × String × JValue × String)) :
    expiredBlock xs = [] ∨
    ∃ tl, expiredBlock xs = "Exceptions expired:" :: tl ∧
      ∀ s ∈ tl, pyStartsWith s "- " = true := by
  unfold expiredBlock
  split
  · exact Or.inl rfl
  · refine Or.inr ⟨_, rfl, ?_⟩
    intro s hs
    simp only [List.mem_map] at hs
    obtain ⟨e, _, he⟩ := hs
    obtain ⟨name, sev, aid, iso⟩ := e
    rw [← he]
    exact pyStartsWith_append_right _ _ _ (pyStartsWith_append_right _ _ _
      (pyStartsWith_append_right _ _ _ (pyStartsWith_append_right _ _ _
        (pyStartsWith_append_right _ _ _ (pyStartsWith_append_right _ _ _
          (pyStartsWith_append _ _))))))

/-! ### Claim C1 -/

/-- Claim C1, counterexample: with one well-formed exception (lodash, adv1,
severity critical) and an audit whose first finding matches it with severity
high and whose second finding has a whitespace-only advisory id, the report
places the severity-mismatch line (discovered first) before the
malformed-finding line (discovered second), refuting the claimed partition
"all malformed-finding errors before all severity-mismatch errors". -/
theorem C1_counterexample :
    collectReport c1Audit c1Lines ⟨2024, 1, 1⟩ =
      .ok ["Exception severity mismatch: lodash (ADV1) expected high, got critical",
           "High/Critical vulnerability missing advisory id: foo (high)"] ∧
    isSeverityMismatchLine
      "Exception severity mismatch: lodash (ADV1) expected high, got critical" = true ∧
    isMissingAdvisoryLine
      "High/Critical vulnerability missing advisory id: foo (high)" = true :=
  ⟨rfl, rfl, rfl⟩

/-- Claim C1 (corrected): the diagnostic report is, in order, (a) all
malformed-exception errors in input order, (b) the malformed-finding
(missing-advisory-id) and severity-mismatch errors interleaved in
finding-discovery order — not segregated from each other — then (c) the
missing-exception header and its listings, then (d) the expired-exception
header and its listings. -/
theorem C1_report_order (audit : JValue) (excLines : List String) (today : PDate)
    (es : List String) (h : collectReport audit excLines today = .ok es) :
    ∃ e1 e2 m x,
      es = e1 ++ e2 ++ m ++ x ∧
      (∀ s ∈ e1, isMalformedExceptionLine s = true) ∧
      (∀ s ∈ e2, isFindingErrorLine s = true) ∧
      (m = [] ∨ ∃ tl, m = "High/Critical vulnerabilities missing exceptions:" :: tl ∧
        ∀ s ∈ tl, pyStartsWith s "- " = true) ∧
      (x = [] ∨ ∃ tl, x = "Exceptions expired:" :: tl ∧
        ∀ s ∈ tl, pyStartsWith s "- " = true) := by
  unfold collectReport at h
  cases hp : parse_exceptions excLines with
  | error e => rw [hp] at h; exact absurd h (by simp)
  | ok excs =>
    rw [hp] at h
    dsimp only at h
    cases hv : iterVulns audit with
    | error e => rw [hv] at h; exact absurd h (by simp)
    | ok findings =>
      rw [hv] at h
      dsimp only at h
      cases hf : evalFold today (buildIndex excs).1
          ⟨[], (buildIndex excs).2, [], []⟩ findings with
      | error e => rw [hf] at h; exact absurd h (by simp)
      | ok st =>
        rw [hf] at h
        simp only [Except.ok.injEq] at h
        subst h
        obtain ⟨e1, he1, hc1⟩ := buildFold_errors excs ([], [])
        obtain ⟨e2, he2, hc2⟩ := evalFold_errors today (buildIndex excs).1 findings
          ⟨[], (buildIndex excs).2, [], []⟩ st hf
        refine ⟨e1, e2, missingBlock st.missing, expiredBlock st.expired, ?_, hc1, hc2,
          missingBlock_shape st.missing, expiredBlock_shape st.expired⟩
        have hb : (buildIndex excs).2 = e1 := by
          unfold buildIndex
          rw [he1]
          exact List.nil_append e1
        rw [he2]
        dsimp only at hb ⊢
        rw [hb]

/-- Witness for C1's partition theorem at the counterexample inputs. -/
theorem C1_report_order_witness :
    ∃ e1 e2 m x,
      (["Exception severity mismatch: lodash (ADV1) expected high, got critical",
        "High/Critical vulnerability missing advisory id: foo (high)"] : List String) =
        e1 ++ e2 ++ m ++ x ∧
      (∀ s ∈ e1, isMalformedExceptionLine s = true) ∧
      (∀ s ∈ e2, isFindingErrorLine s = true) ∧
      (m = [] ∨ ∃ tl, m = "High/Critical vulnerabilities missing exceptions:" :: tl ∧
        ∀ s ∈ tl, pyStartsWith s "- " = true) ∧
      (x = [] ∨ ∃ tl, x = "Exceptions expired:" :: tl ∧
        ∀ s ∈ tl, pyStartsWith s "- " = true) :=
  C1_report_order c1Audit c1Lines ⟨2024, 1, 1⟩ _ rfl

/-! ### Claim C2 -/

/-- Claim C2 (confirmed): whenever the run completes normally with collected
diagnostic lines `es`, it fails (exit 1) iff at least one line was produced;
on failure the lines joined with newline go to stderr and stdout is empty;
with no lines, the single confirmation line goes to stdout and the exit
result is 0. -/
theorem C2_exit_semantics (audit : JValue) (excLines : List String) (today : PDate)
    (es : List String) (h : collectReport audit excLines today = .ok es) :
    ∃ r, runMain audit excLines today = .ok r ∧
      (r.exitCode = 1 ↔ es ≠ []) ∧
      (es ≠ [] → r.stderr = String.intercalate "\n" es ++ "\n" ∧ r.stdout = "") ∧
      (es = [] → r.exitCode = 0 ∧ r.stdout = "Audit exceptions validated.\n" ∧
        r.stderr = "") := by
  unfold runMain
  rw [h]
  cases es with
  | nil =>
    exact ⟨⟨0, "Audit exceptions validated.\n", ""⟩, rfl, by simp, by simp,
      fun _ => ⟨rfl, rfl, rfl⟩⟩
  | cons a as =>
    exact ⟨⟨1, "", String.intercalate "\n" (a :: as) ++ "\n"⟩, rfl, by simp,
      fun _ => ⟨rfl, rfl⟩, by simp⟩

/-- Witness for C2 on empty inputs (no diagnostics, success path). -/
theorem C2_exit_semantics_witness :
    ∃ r, runMain (JValue.obj []) [] ⟨2024, 1, 1⟩ = .ok r ∧
      (r.exitCode = 1 ↔ ([] : List String) ≠ []) ∧
      (([] : List String) ≠ [] →
        r.stderr = String.intercalate "\n" ([] : List String) ++ "\n" ∧ r.stdout = "") ∧
      (([] : List String) = [] → r.exitCode = 0 ∧
        r.stdout = "Audit exceptions validated.\n" ∧ r.stderr = "") :=
  C2_exit_semantics (JValue.obj []) [] ⟨2024, 1, 1⟩ [] rfl

/-! ### Claim C3 -/

theorem missing_isEmpty_eq_all (exc : Record) :
    (REQUIRED_FIELDS.filter (fun f => !truthyOS (dget exc f))).isEmpty =
      REQUIRED_FIELDS.all (fun f => truthyOS (dget exc f)) :=
  filter_not_isEmpty_eq_all (fun f => truthyOS (dget exc f)) REQUIRED_FIELDS

/-- Claim C3 (confirmed): a raw exception record is inserted into the index
iff all five required fields are present and non-empty, `expires_on` parses
as a date, the normalized package and advisory are non-empty, and the key is
not already indexed; otherwise exactly one error line is appended and the
index is unchanged.  Moreover processing a record never alters an existing
binding, so the first-inserted record for a key is the one that matches. -/
theorem C3_exception_indexing (index : Index) (errs : List String) (exc : Record) :
    (excValid index exc = true →
      ∃ entry, buildStep (index, errs) exc = (index ++ [(excKey exc, entry)], errs)) ∧
    (excValid index exc = false →
      (buildStep (index, errs) exc).1 = index ∧
      ∃ line, (buildStep (index, errs) exc).2 = errs ++ [line]) ∧
    (∀ k v, lookupIdx index k = some v →
      lookupIdx (buildStep (index, errs) exc).1 k = some v) := by
  unfold buildStep excValid excKey
  dsimp only
  rw [missing_isEmpty_eq_all exc]
  cases hall : REQUIRED_FIELDS.all (fun f => truthyOS (dget exc f)) with
  | false =>
    rw [if_pos (by decide)]
    exact ⟨fun hv => by simp at hv, fun hv => ⟨rfl, _, rfl⟩, fun k v hk => hk⟩
  | true =>
    rw [if_neg (by decide)]
    cases hd : parse_date ((dget exc "expires_on").getD "") with
    | none =>
      exact ⟨fun hv => by simp at hv, fun hv => ⟨rfl, _, rfl⟩, fun k v hk => hk⟩
    | some d =>
      dsimp only
      cases hk1 : (normalize_package (optToJ (dget exc "package")) == "") with
      | true =>
        rw [if_pos (by simp)]
        exact ⟨fun hv => by simp [bne, hk1] at hv, fun hv => ⟨rfl, _, rfl⟩,
          fun k v hk => hk⟩
      | false =>
        cases hk2 : (normalize_advisory (optToJ (dget exc "advisory")) == "") with
        | true =>
          rw [if_pos (by simp)]
          exact ⟨fun hv => by simp [bne, hk2] at hv, fun hv => ⟨rfl, _, rfl⟩,
            fun k v hk => hk⟩
        | false =>
          rw [if_neg (by decide)]
          cases hopt : lookupIdx index (normalize_package (optToJ (dget exc "package")),
              normalize_advisory (optToJ (dget exc "advisory"))) with
          | some w =>
            rw [if_pos (by simp)]
            exact ⟨fun hv => by simp [bne, hk1, hk2] at hv, fun hv => ⟨rfl, _, rfl⟩,
              fun k v hk => hk⟩
          | none =>
            rw [if_neg (by decide)]
            refine ⟨fun hv => ⟨_, rfl⟩, fun hv => ?_, ?_⟩
            · exact absurd hv (by simp [bne, hk1, hk2])
            · intro k v hk
              exact lookupIdx_append_of_some hk _

/-- Witness for C3: a fully valid record is inserted under its normalized
key; a record missing its mitigation field is rejected with exactly one
error line and no insertion. -/
theorem C3_exception_indexing_witness :
    (∃ entry, buildStep ([], []) c3GoodRec = ([] ++ [(excKey c3GoodRec, entry)], [])) ∧
    ((buildStep ([], []) c3BadRec).1 = [] ∧
      ∃ line, (buildStep ([], []) c3BadRec).2 = [] ++ [line]) :=
  ⟨(C3_exception_indexing [] [] c3GoodRec).1 rfl,
   (C3_exception_indexing [] [] c3BadRec).2.1 rfl⟩

/-! ### Claim C4 -/

/-- Claim C4, counterexample: a modern-shape entry whose `via` list holds the
same advisory string twice yields two identical findings — one per truthy
occurrence, not one per distinct non-empty advisory identifier as claimed. -/
theorem C4_counterexample :
    modernYield "lodash" (JValue.obj c4Fs) = .ok
      [⟨.str "lodash", .str "high", .str "CVE-X", .str "CVE-X; CVE-X"⟩,
       ⟨.str "lodash", .str "high", .str "CVE-X", .str "CVE-X; CVE-X"⟩] := rfl

/-- Claim C4 (corrected): for every modern-shape entry that yields findings,
there is exactly one finding per truthy advisory-identifier occurrence among
its `via` causal entries (in order, duplicate identifiers included), and
every finding carries the package name, the package's severity, and the
shared title joined from all truthy title fragments with "; ". -/
theorem C4_modern_findings (name : String) (fs : List (String × JValue))
    (res : List Finding) (h : modernYield name (JValue.obj fs) = .ok res) :
    ∃ ts, joinTitles (viaTitles (JValue.obj fs)) = .ok ts ∧
      res.map Finding.advisoryId = (viaAdvisories (JValue.obj fs)).filter truthy ∧
      ∀ f ∈ res, f.name = .str name ∧ f.severity = aget fs "severity" ∧
        f.title = .str ts := by
  unfold modernYield at h
  dsimp only at h
  cases ht : joinTitles (viaLists (agetD fs "via" (JValue.arr []))).2 with
  | error e => rw [ht] at h; exact absurd h (by simp)
  | ok ts =>
    rw [ht] at h
    simp only [Except.ok.injEq] at h
    subst h
    refine ⟨ts, ht, ?_, ?_⟩
    · rw [List.map_map]
      exact List.map_id _
    · intro f hf
      simp only [List.mem_map] at hf
      obtain ⟨a, _, ha⟩ := hf
      rw [← ha]
      exact ⟨rfl, rfl, rfl⟩

/-- Witness for C4's amended statement on a two-cause entry mixing a record
item (numeric source) and a plain string item. -/
theorem C4_modern_findings_witness :
    ∃ ts, joinTitles (viaTitles (JValue.obj c4wFs)) = .ok ts ∧
      c4wRes.map Finding.advisoryId = (viaAdvisories (JValue.obj c4wFs)).filter truthy ∧
      ∀ f ∈ c4wRes, f.name = .str "minimist" ∧ f.severity = aget c4wFs "severity" ∧
        f.title = .str ts :=
  C4_modern_findings "minimist" c4wFs c4wRes rfl

/-! ### Claim C5 -/

/-- Claim C5 (confirmed): a matched exception is recorded as an
expired-exception violation iff its expiry date is strictly before the
evaluation date; an exception expiring exactly today records nothing. -/
theorem C5_expiry_boundary (today : PDate) (index : Index) (st : EvalSt)
    (f : Finding) (sev : String) (entry : ExcEntry)
    (hsev : normalize_severity f.severity = .ok sev)
    (hhigh : HIGH_SEVERITIES.contains sev = true)
    (hname : truthy f.name = true)
    (hkey : (normalize_advisory f.advisoryId == "") = false)
    (hseen : memKey st.seen (findingKey f) = false)
    (hidx : lookupIdx index (findingKey f) = some entry) :
    ∃ st1, evalStep today index st f = .ok st1 ∧
      (PDate.lt entry.expiresOn today = true →
        st1.expired = st.expired ++ [(f.name, sev, f.advisoryId, entry.expiresOn.isoformat)]) ∧
      (PDate.lt entry.expiresOn today = false → st1.expired = st.expired) := by
  refine ⟨_, evalStep_found today index st f sev entry hsev hhigh hname hkey hseen hidx,
    ?_, ?_⟩
  · intro hx
    dsimp only
    rw [if_pos hx]
  · intro hx
    dsimp only
    rw [if_neg (by simp [hx])]
    exact List.append_nil _

/-- Witness for C5 at the boundary: expiry equal to today records nothing,
expiry one day earlier records the violation. -/
theorem C5_expiry_boundary_witness :
    (∃ st1, evalStep ⟨2024, 5, 10⟩ c5Idx1 c5St c5F = .ok st1 ∧
      st1.expired = c5St.expired) ∧
    (∃ st1, evalStep ⟨2024, 5, 10⟩ c5Idx2 c5St c5F = .ok st1 ∧
      st1.expired = c5St.expired ++
        [(JValue.str "lodash", "high", JValue.str "ADV1", "2024-05-09")]) := by
  constructor
  · obtain ⟨st1, h1, _, h3⟩ :=
      C5_expiry_boundary ⟨2024, 5, 10⟩ c5Idx1 c5St c5F "high" c5Entry1 rfl rfl rfl rfl rfl rfl
    exact ⟨st1, h1, h3 rfl⟩
  · obtain ⟨st1, h1, h2, _⟩ :=
      C5_expiry_boundary ⟨2024, 5, 10⟩ c5Idx2 c5St c5F "high" c5Entry2 rfl rfl rfl rfl rfl rfl
    exact ⟨st1, h1, h2 rfl⟩

/-! ### Claim C6 -/

/-- Claim C6 (confirmed): a finding matching an exception whose normalized
severity is non-empty and different and whose expiry is strictly past
produces both the severity-mismatch error line and the expired-exception
entry in the same step — the two checks are independent. -/
theorem C6_mismatch_and_expiry (today : PDate) (index : Index) (st : EvalSt)
    (f : Finding) (sev : String) (entry : ExcEntry)
    (hsev : normalize_severity f.severity = .ok sev)
    (hhigh : HIGH_SEVERITIES.contains sev = true)
    (hname : truthy f.name = true)
    (hkey : (normalize_advisory f.advisoryId == "") = false)
    (hseen : memKey st.seen (findingKey f) = false)
    (hidx : lookupIdx index (findingKey f) = some entry)
    (hm : (entry.severity != "" && entry.severity != sev) = true)
    (hx : PDate.lt entry.expiresOn today = true) :
    evalStep today index st f = .ok
      { seen := st.seen ++ [findingKey f],
        errors := st.errors ++ ["Exception severity mismatch: " ++ pyStr f.name ++
          " (" ++ pyStr f.advisoryId ++ ") expected " ++ sev ++ ", got " ++ entry.severity],
        missing := st.missing,
        expired := st.expired ++ [(f.name, sev, f.advisoryId, entry.expiresOn.isoformat)] } := by
  rw [evalStep_found today index st f sev entry hsev hhigh hname hkey hseen hidx]
  rw [if_pos hm, if_pos hx]

/-- Witness for C6: severity critical vs high plus a past expiry yields both
outputs in one step. -/
theorem C6_mismatch_and_expiry_witness :
    evalStep ⟨2024, 5, 10⟩ c6Idx c5St c5F = .ok
      { seen := [("lodash", "adv1")],
        errors := ["Exception severity mismatch: lodash (ADV1) expected high, got critical"],
        missing := [],
        expired := [(JValue.str "lodash", "high", JValue.str "ADV1", "2024-05-09")] } :=
  C6_mismatch_and_expiry ⟨2024, 5, 10⟩ c6Idx c5St c5F "high" c6Entry
    rfl rfl rfl rfl rfl rfl rfl rfl

/-! ### Claim C7 -/

/-- Claim C7 (confirmed): of two findings with the same normalized key, only
the first is evaluated against the index; processing the second leaves the
entire evaluation state unchanged, so the pair never contributes twice to
the missing-exception list or any other per-finding output. -/
theorem C7_duplicate_finding_dropped (today : PDate) (index : Index) (st : EvalSt)
    (f g : Finding) (sevf sevg : String)
    (hf : normalize_severity f.severity = .ok sevf)
    (hg : normalize_severity g.severity = .ok sevg)
    (hhigh : HIGH_SEVERITIES.contains sevf = true)
    (hname : truthy f.name = true)
    (hkey : (normalize_advisory f.advisoryId == "") = false)
    (hseen : memKey st.seen (findingKey f) = false)
    (heq : findingKey g = findingKey f) :
    ∃ st1, evalStep today index st f = .ok st1 ∧
      evalStep today index st1 g = .ok st1 := by
  obtain ⟨st1, h1, hs1⟩ := evalStep_seen_extends today index st f sevf hf hhigh hname hkey hseen
  refine ⟨st1, h1, ?_⟩
  have hkeyg : (normalize_advisory g.advisoryId == "") = false := by
    have h2 := congrArg Prod.snd heq
    simp only [findingKey] at h2
    rw [h2]
    exact hkey
  have hseeng : memKey st1.seen (findingKey g) = true := by
    rw [heq, hs1]
    exact memKey_append_self st.seen (findingKey f)
  exact evalStep_skip_of_seen today index st1 g sevg hg hkeyg hseeng

/-- Witness for C7: a second finding whose package differs only by leading
whitespace and whose advisory differs only by case is dropped. -/
theorem C7_duplicate_finding_dropped_witness :
    ∃ st1, evalStep ⟨2024, 1, 1⟩ [] c5St c7F = .ok st1 ∧
      evalStep ⟨2024, 1, 1⟩ [] st1 c7G = .ok st1 :=
  C7_duplicate_finding_dropped ⟨2024, 1, 1⟩ [] c5St c7F c7G "high" "critical"
    rfl rfl rfl rfl rfl rfl rfl

/-! ### Claim C8 -/

/-- Claim C8 (confirmed): advisory matching is case-insensitive — an advisory
string and its uppercased form normalize to the same key — while package
matching is case-sensitive after trimming: two distinct package names that
agree up to letter case normalize to distinct keys. -/
theorem C8_key_case_rules :
    (∀ a : String, normalize_advisory (.str (pyUpper a)) = normalize_advisory (.str a)) ∧
    (∀ p q : String, pyLower p = pyLower q → p ≠ q →
      normalize_package (.str p) ≠ normalize_package (.str q)) := by
  constructor
  · intro a
    show pyLower (pyStrip (pyUpper a)) = pyLower (pyStrip a)
    unfold pyLower pyStrip pyUpper
    apply congrArg String.mk
    rw [show (String.mk (a.data.map pyUpperChar)).data = a.data.map pyUpperChar from rfl,
      stripL_map_pyUpperChar, map_lower_upper]
  · intro p q hlow hne hcontra
    apply hne
    have hdata : p.data.map pyLowerChar = q.data.map pyLowerChar :=
      congrArg String.data hlow
    have hstrip : stripL p.data = stripL q.data :=
      congrArg String.data hcontra
    have hpq : p.data = q.data := stripL_inj_of_lower_eq hdata hstrip
    cases p
    cases q
    exact congrArg String.mk hpq

/-- Witness for C8: a mixed-case advisory id matches its uppercased form,
while the packages Foo and foo normalize to distinct keys. -/
theorem C8_key_case_rules_witness :
    normalize_advisory (.str (pyUpper "GhSa-Abc-1")) =
      normalize_advisory (.str "GhSa-Abc-1") ∧
    normalize_package (.str "Foo") ≠ normalize_package (.str "foo") :=
  ⟨C8_key_case_rules.1 "GhSa-Abc-1",
   C8_key_case_rules.2 "Foo" "foo" rfl (by decide)⟩

/-! ### Claim C9 -/

theorem mem_of_listIsPfx {c : Char} :
    ∀ (p l : List Char), listIsPfx p l = true → c ∈ p → c ∈ l := by
  intro p
  induction p with
  | nil => intro l _ hc; simp at hc
  | cons d ds ih =>
    intro l hp hc
    cases l with
    | nil => simp [listIsPfx] at hp
    | cons e es =>
      simp only [listIsPfx, Bool.and_eq_true, beq_iff_eq] at hp
      rcases List.mem_cons.mp hc with hcd | hcds
      · rw [hcd, hp.1]; exact List.mem_cons_self e es
      · exact List.mem_cons_of_mem e (ih es hp.2 hcds)

theorem splitFirstColon_ne_none :
    ∀ (l : List Char), ':' ∈ l → splitFirstColon l ≠ none := by
  intro l
  induction l with
  | nil => intro hc; simp at hc
  | cons c cs ih =>
    intro hc
    unfold splitFirstColon
    by_cases hcc : c = ':'
    · rw [if_pos hcc]; simp
    · rw [if_neg hcc]
      have hmem : ':' ∈ cs := by
        rcases List.mem_cons.mp hc with h | h
        · exact absurd h.symm hcc
        · exact h
      cases hsp : splitFirstColon cs with
      | none => exact absurd hsp (ih hmem)
      | some kv => simp

/-- Claim C9, counterexample: a record line with no colon ("junk") does not
make the parser raise — parsing completes normally, the line is skipped, and
the record is produced without it. -/
theorem C9_counterexample :
    parse_exceptions ["- package: lodash", "junk"] = .ok [[("package", "lodash")]] ∧
    splitFirstColon (pyStrip "junk").data = none :=
  ⟨rfl, rfl⟩

/-- Claim C9 (corrected): a non-blank, non-comment, non-list-marker line that
cannot be split on a colon, read while a record is open, is silently skipped:
the parser state is unchanged and parsing continues (rather than propagating
a fatal parse failure, as the claim stated). -/
theorem C9_nonkv_line_skipped (excs : List Record) (r : Record) (raw : String)
    (h1 : (pyStrip raw == "") = false)
    (h2 : pyStartsWith (pyStrip raw) "#" = false)
    (h3 : pyStartsWith (pyStrip raw) "- " = false)
    (h4 : splitFirstColon (pyStrip raw).data = none) :
    parseStep (excs, some r) raw = .ok (excs, some r) := by
  have hnc : ':' ∉ (pyStrip raw).data := by
    intro hmem
    exact absurd h4 (splitFirstColon_ne_none _ hmem)
  have hv : pyStartsWith (pyStrip raw) "version:" = false := by
    cases hsw : pyStartsWith (pyStrip raw) "version:" with
    | false => rfl
    | true =>
      exact absurd (mem_of_listIsPfx _ _ hsw (by decide)) hnc
  have hexc : pyStartsWith (pyStrip raw) "exceptions:" = false := by
    cases hsw : pyStartsWith (pyStrip raw) "exceptions:" with
    | false => rfl
    | true =>
      exact absurd (mem_of_listIsPfx _ _ hsw (by decide)) hnc
  have hsk : split_kv (pyStrip raw) = none := by
    unfold split_kv
    rw [h4]
  unfold parseStep
  dsimp only
  rw [h1, h2, if_neg (by decide), hv, hexc, if_neg (by decide), h3,
    if_neg (by decide), hsk]

/-- Witness for C9: a free-text line inside an open record is skipped and
the open record is preserved. -/
theorem C9_nonkv_line_skipped_witness :
    parseStep ([], some [("package", "lodash")]) "mitigation pending" =
      .ok ([], some [("package", "lodash")]) :=
  C9_nonkv_line_skipped [] [("package", "lodash")] "mitigation pending" rfl rfl rfl rfl

/-! ### Claim C10 -/

/-- Claim C10 (confirmed): a finding with high/critical severity but an
absent (None) or empty package name is silently dropped: removing it from
the finding stream does not change the evaluation fold at all, so it emits
no error line, no missing- or expired-exception entry, and cannot affect the
report or the exit outcome. -/
theorem C10_nameless_finding_dropped (today : PDate) (index : Index) (st : EvalSt)
    (f : Finding) (sev : String) (fs1 fs2 : List Finding)
    (hsev : normalize_severity f.severity = .ok sev)
    (hhigh : HIGH_SEVERITIES.contains sev = true)
    (hname : f.name = JValue.null ∨ f.name = JValue.str "") :
    evalFold today index st (fs1 ++ f :: fs2) = evalFold today index st (fs1 ++ fs2) := by
  have hstep : ∀ st0 : EvalSt, evalStep today index st0 f = .ok st0 := by
    intro st0
    apply evalStep_skip_of_filtered today index st0 f sev hsev
    have hn : truthy f.name = false := by
      rcases hname with h | h <;> rw [h] <;> rfl
    rw [hn]
    simp
  induction fs1 generalizing st with
  | nil =>
    simp only [List.nil_append, evalFold, List.foldlM_cons]
    rw [hstep st]
    simp only [Bind.bind, Except.bind]
  | cons x rest ih =>
    simp only [List.cons_append, evalFold, List.foldlM_cons]
    cases hx : evalStep today index st x with
    | error e =>
      simp only [Bind.bind, Except.bind]
    | ok st1 =>
      simp only [Bind.bind, Except.bind]
      exact ih st1

/-- Witness for C10: a critical finding with an empty package name leaves
the fold over a one-element stream identical to the fold over none. -/
theorem C10_nameless_finding_dropped_witness :
    evalFold ⟨2024, 1, 1⟩ [] c5St ([] ++ c10F :: []) =
      evalFold ⟨2024, 1, 1⟩ [] c5St ([] ++ []) :=
  C10_nameless_finding_dropped ⟨2024, 1, 1⟩ [] c5St c10F "critical" [] []
    rfl rfl (Or.inr rfl)
